import Mathlib

/-!
# A shallow embedding of `imap.go`

The program is a small IMAP mail client.  The definitions below follow the
functions of `imap.go`:

* `getIMAPServer`  (imap.go:380-409), with the regular expression it compiles,
* the login callback of `createLoginForm` (imap.go:59-146),
* `fetchEmails` (imap.go:198-252),
* `viewMessage` (imap.go:302-353),
* `deleteEmail` (imap.go:356-377).

Strings are sequences of Unicode characters.  The answers of the IMAP server to
the library calls (`Select`, `Fetch`, `UidFetch`, `UidStore`, `Expunge`, ...)
are inputs of the model; every library call and every dialog the code raises is
recorded, in program order, in a list of `Event`s.  A channel that the library
fills and closes, followed by the value sent on `done`, is the list of records
together with an optional error.  Pointers that can be nil when the program
uses them (`appData.Client`, the client passed to `viewMessage`, the record
received in `viewMessage`, the reader returned by `GetBody`, the envelope of a
record) are options; a dereference of nil is a panic, which stops the program.
-/

namespace ImapClient

/-! ## Regular expressions (the fragment of RE2 used by the program) -/

/-- Regular expressions: the constructs that occur in the pattern compiled at
imap.go:382, with the meaning the Go `regexp` package gives them when no flag
is set. -/
inductive Regex where
  /-- a literal character -/
  | lit (c : Char)
  /-- the dot: any character except line feed -/
  | anyNotNL
  /-- one or more repetitions, preferring more -/
  | plus (r : Regex)
  /-- a capturing group -/
  | group (r : Regex)
  /-- the dollar sign: the end of the text -/
  | endText
  /-- concatenation -/
  | seq (r₁ r₂ : Regex)
  deriving Repr

/-- One way of matching at a position: the input left over after the match and
the texts captured by the groups that were closed. -/
abbrev Thread := List Char × List (List Char)

/-- Iteration for `plus`: run `step` once, then, in order of preference, go on
iterating from where it stopped (only when it consumed input) or stop there.
The first argument bounds the number of iterations. -/
def plusLoop (step : List Char → List Thread) : Nat → List Char → List Thread
  | 0, _ => []
  | n + 1, s =>
    (step s).flatMap fun th =>
      (if th.1.length < s.length then plusLoop step n th.1 else []) ++ [th]

/-- All the ways a backtracking matcher matches `r` at the start of `s`, in the
order in which it tries them.  For `plus` the bound `s.length + 1` is never
used up: an iteration goes on only after input was consumed. -/
def Regex.run : Regex → List Char → List Thread
  | .lit c, s =>
    match s with
    | x :: t => if x = c then [(t, [])] else []
    | [] => []
  | .anyNotNL, s =>
    match s with
    | x :: t => if x ≠ '\n' then [(t, [])] else []
    | [] => []
  | .plus r, s => plusLoop (Regex.run r) (s.length + 1) s
  | .group r, s =>
    (Regex.run r s).map fun th => (th.1, th.2 ++ [s.take (s.length - th.1.length)])
  | .endText, s =>
    match s with
    | [] => [([], [])]
    | _ :: _ => []
  | .seq r₁ r₂, s =>
    (Regex.run r₁ s).flatMap fun th₁ =>
      (Regex.run r₂ th₁.1).map fun th₂ => (th₂.1, th₁.2 ++ th₂.2)

/-- The match starting exactly at the start of `s`, if there is one: the whole
matched text followed by the captured texts. -/
def Regex.matchHere (r : Regex) (s : List Char) : Option (List (List Char)) :=
  match r.run s with
  | th :: _ => some (s.take (s.length - th.1.length) :: th.2)
  | [] => none

/-- Leftmost match: try every starting position from left to right. -/
def Regex.search (r : Regex) : List Char → Option (List (List Char))
  | [] => r.matchHere []
  | x :: t =>
    match r.matchHere (x :: t) with
    | some m => some m
    | none => Regex.search r t

/-- The method `FindStringSubmatch`: the text of the leftmost match and of its groups, or
the nil slice (the empty list) when nothing matches. -/
def Regex.FindStringSubmatch (r : Regex) (s : String) : List String :=
  match r.search s.data with
  | some m => m.map String.mk
  | none => []

/-! ## `getIMAPServer` -/

/-- The pattern `@(.+)$` of imap.go:382. -/
def re : Regex :=
  .seq (.lit '@') (.seq (.group (.plus .anyNotNL)) .endText)

/-- The map literal of imap.go:390-397. -/
def servers : List (String × String) :=
  [ ("gmail.com", "imap.gmail.com"),
    ("yahoo.com", "imap.mail.yahoo.com"),
    ("outlook.com", "imap-mail.outlook.com"),
    ("hotmail.com", "imap-mail.outlook.com"),
    ("mail.ru", "imap.mail.ru"),
    ("yandex.ru", "imap.yandex.ru") ]

/-- Translation of `getIMAPServer` (imap.go:380-409). -/
def getIMAPServer (email : String) : String × Int :=
  match re.FindStringSubmatch email with
  | [_, domain] =>
    let server :=
      match servers.lookup domain with
      | some server => server
      | none => "imap." ++ domain
    let port : Int := 993
    (server, port)
  | _ => ("", 0)

/-! ## Data model -/

/-- A non-nil Go `error`, given by its message. -/
abbrev Error := String

/-- The struct `Email` (imap.go:24-28); `UID` is a `uint32`. -/
structure Email where
  UID : Nat
  From : String
  Subject : String
  deriving DecidableEq, Repr

/-- A connection handle of the IMAP library (`*client.Client`, when not nil). -/
structure Client where
  id : Nat
  deriving DecidableEq, Repr

/-- The struct `AppData` (imap.go:31-35).  The channel `EmailCh` is created at
imap.go:43 and never used again; it is left out. -/
structure AppData where
  Client : Option Client
  Emails : List Email
  deriving DecidableEq, Repr

/-- An address of an envelope (`imap.Address`). -/
structure Address where
  PersonalName : String
  AtDomainList : String
  MailboxName : String
  HostName : String
  deriving DecidableEq, Repr

/-- The library method `Address()`: mailbox name, at sign, host name. -/
def Address.Address (addr : Address) : String :=
  addr.MailboxName ++ "@" ++ addr.HostName

/-- The fields of `imap.Envelope` the program reads.  The library fills `From`
with the addresses it parsed, none of which is nil. -/
structure Envelope where
  From : List Address
  Subject : String
  deriving DecidableEq, Repr

/-- A message read by the library `message.Read`, as far as `viewMessage` looks
at it: the subject (the error of `header.Subject()` is discarded at
imap.go:330), the outcome of `header.AddressList("From")` with every address
given by its `String()` rendering, and the outcome of `io.ReadAll(mr.Body)`. -/
structure Entity where
  Subject : String
  From : Except Error (List String)
  Body : Except Error String

/-- A record delivered on the `messages` channel (`*imap.Message`): the UID, the
envelope (a pointer, nil when the response of the server carried no envelope),
and for the body section the reader returned by `GetBody` (absent when it
returns nil) together with the outcome of `message.Read` on it. -/
structure Message where
  Uid : Nat
  Envelope : Option Envelope
  Body : Option (Except Error Entity)

/-- The field of `imap.MailboxStatus` the program reads (a `uint32`). -/
structure MailboxStatus where
  Messages : Nat
  deriving DecidableEq, Repr

/-- What the program does to the outside, in program order: calls of the IMAP
library and changes of the window. -/
inductive Event where
  /-- call of `client.DialTLS(addr, ...)` -/
  | dialTLS (addr : String)
  /-- call of `c.Login(email, password)` -/
  | login (email password : String)
  /-- call of `c.Select("INBOX", false)` -/
  | select
  /-- call of `c.Fetch` for envelope and UID of the sequence range `seqFrom:seqTo` -/
  | fetch (seqFrom seqTo : Nat)
  /-- call of `c.UidFetch` for the whole body and the UID of one UID -/
  | uidFetch (uid : Nat)
  /-- call of `c.UidStore(seqset, item, flags, nil)` for one UID -/
  | uidStore (uid : Nat) (item : String) (flags : List String)
  /-- call of `c.Expunge(nil)` -/
  | expunge
  /-- call of `c.Logout()` -/
  | logout
  /-- call of `dialog.ShowError` -/
  | showError (msg : String)
  /-- call of `dialog.ShowInformation` -/
  | showInformation (title msg : String)
  /-- call of `w.SetContent` with the list built by `createEmailList` -/
  | showEmailList
  /-- a run-time panic (dereference of a nil pointer): the program stops here -/
  | panic
  deriving DecidableEq, Repr

/-- The state of the application and the events raised by one run of a
callback; after a `panic` event the state is the one the program stopped in. -/
structure Run where
  appData : AppData
  events : List Event
  deriving DecidableEq, Repr

/-! ## Library functions on strings -/

/-- The predicate `unicode.IsSpace` of the Go library. -/
def isSpace (r : Char) : Bool :=
  let n := r.toNat
  if n ≤ 0xFF then
    n = 0x09 ∨ n = 0x0A ∨ n = 0x0B ∨ n = 0x0C ∨ n = 0x0D ∨ n = 0x20 ∨ n = 0x85 ∨ n = 0xA0
  else
    n = 0x1680 ∨ (0x2000 ≤ n ∧ n ≤ 0x200A) ∨ n = 0x2028 ∨ n = 0x2029 ∨ n = 0x202F ∨
      n = 0x205F ∨ n = 0x3000

/-- The library function `strings.TrimSpace`: drop leading and trailing white space. -/
def TrimSpace (s : String) : String :=
  String.mk ((s.data.dropWhile isSpace).reverse.dropWhile isSpace).reverse

/-! ## The callbacks -/

/-- The loop of imap.go:121-129 and imap.go:232-240 over the records received
from the channel, started with the emails gathered so far; `none` when
`msg.Envelope.From` is evaluated on a record whose envelope is nil. -/
def collectLoop (emails : List Email) : List Message → Option (List Email)
  | [] => some emails
  | msg :: rest =>
    match msg.Envelope with
    | none => none
    | some envelope =>
      if h : envelope.From.length > 0 then
        collectLoop (emails ++ [Email.mk msg.Uid (envelope.From[0]).Address envelope.Subject]) rest
      else collectLoop emails rest

/-- The declaration `var emails []Email` followed by the loop (imap.go:120-129,
imap.go:231-240). -/
def collectEmails (messages : List Message) : Option (List Email) :=
  collectLoop [] messages

/-- The answers of the server to the calls of the login callback. -/
structure LoginEnv where
  dial : Except Error Client
  login : Option Error
  select : Except Error MailboxStatus
  fetch : List Message × Option Error

/-- The callback of the login button (imap.go:59-146), run on the texts of the
two entries. -/
def loginHandler (appData : AppData) (emailText passwordText : String) (env : LoginEnv) : Run :=
  let email := TrimSpace emailText
  let password := TrimSpace passwordText
  if email = "" ∨ password = "" then
    ⟨appData, [.showError "Пожалуйста, заполните все поля"]⟩
  else
    let (server, port) := getIMAPServer email
    if server = "" ∨ port = 0 then
      ⟨appData, [.showError "Не удалось определить IMAP сервер для данного домена"]⟩
    else
      let addr := server ++ ":" ++ toString port
      match env.dial with
      | .error err =>
        ⟨appData, [.dialTLS addr, .showError ("Не удалось подключиться к серверу: " ++ err)]⟩
      | .ok c =>
        match env.login with
        | some err =>
          ⟨appData, [.dialTLS addr, .login email password, .logout,
            .showError ("Ошибка аутентификации: " ++ err)]⟩
        | none =>
          let appData := { appData with Client := some c }
          match env.select with
          | .error err =>
            ⟨appData, [.dialTLS addr, .login email password, .select, .logout,
              .showError ("Не удалось выбрать INBOX: " ++ err)]⟩
          | .ok mbox =>
            if mbox.Messages = 0 then
              ⟨appData, [.dialTLS addr, .login email password, .select, .logout,
                .showInformation "INBOX пуст" "Нет сообщений в INBOX"]⟩
            else
              let seqFrom := if mbox.Messages > 10 then (mbox.Messages + 2 ^ 32 - 9) % 2 ^ 32 else 1
              let seqTo := mbox.Messages
              match collectEmails env.fetch.1 with
              | none =>
                ⟨appData, [.dialTLS addr, .login email password, .select, .fetch seqFrom seqTo,
                  .panic]⟩
              | some emails =>
                match env.fetch.2 with
                | some err =>
                  ⟨appData, [.dialTLS addr, .login email password, .select,
                    .fetch seqFrom seqTo, .logout,
                    .showError ("Ошибка при получении писем: " ++ err)]⟩
                | none =>
                  ⟨{ appData with Emails := emails },
                    [.dialTLS addr, .login email password, .select, .fetch seqFrom seqTo,
                      .showEmailList]⟩

/-- Translation of `fetchEmails` (imap.go:198-252); `select` and `fetch` are the
answers of the server to `Select` and to `Fetch`. -/
def fetchEmails (appData : AppData) (select : Except Error MailboxStatus)
    (fetch : List Message × Option Error) : Run :=
  match appData.Client with
  | none => ⟨appData, [.showError "Клиент не подключен"]⟩
  | some _ =>
    match select with
    | .error err => ⟨appData, [.select, .showError ("Не удалось выбрать INBOX: " ++ err)]⟩
    | .ok mbox =>
      if mbox.Messages = 0 then
        ⟨appData, [.select, .showInformation "INBOX пуст" "Нет сообщений в INBOX"]⟩
      else
        let seqFrom := if mbox.Messages > 10 then (mbox.Messages + 2 ^ 32 - 9) % 2 ^ 32 else 1
        let seqTo := mbox.Messages
        match collectEmails fetch.1 with
        | none => ⟨appData, [.select, .fetch seqFrom seqTo, .panic]⟩
        | some emails =>
          match fetch.2 with
          | some err =>
            ⟨appData, [.select, .fetch seqFrom seqTo,
              .showError ("Ошибка при получении писем: " ++ err)]⟩
          | none =>
            ⟨{ appData with Emails := emails },
              [.select, .fetch seqFrom seqTo, .showEmailList]⟩

/-- How a call of `viewMessage` ends. -/
inductive Completion where
  /-- it returns the content and the error (nil is `none`) -/
  | returned (content : String) (err : Option Error)
  /-- a nil pointer is dereferenced and the program stops -/
  | panicked
  /-- it waits for ever on a channel -/
  | blocked
  deriving DecidableEq, Repr

/-- How `viewMessage` ends, with the events it raised. -/
structure ViewResult where
  outcome : Completion
  events : List Event
  deriving DecidableEq, Repr

/-- Translation of `viewMessage` (imap.go:302-353); `fetch` is the answer of
the server to `UidFetch`: the records the library puts, one after the other, on
the channel before it closes it, and the value it sends on `done` afterwards.

* On the nil client the library method dereferences its receiver in the
  goroutine of imap.go:309-311.
* The channel has capacity 1 (imap.go:307) and is received from once
  (imap.go:313): the library can hand over the first record and leave a second
  one in the buffer; with a third one it stays in its send, never sends on
  `done`, and the receive of imap.go:348 waits for ever. -/
def viewMessage (c : Option Client) (uid : Nat) (fetch : List Message × Option Error) :
    ViewResult :=
  let events := [Event.uidFetch uid]
  match c with
  | none => ⟨.panicked, events⟩
  | some _ =>
    match fetch.1 with
    | [] => ⟨.returned "" (some "сообщение не найдено"), events⟩
    | msg :: rest =>
      match msg.Body with
      | none => ⟨.returned "" (some "не удалось получить тело сообщения"), events⟩
      | some (.error err) => ⟨.returned "" (some err), events⟩
      | some (.ok mr) =>
        let subject := mr.Subject
        match mr.From with
        | .error err => ⟨.returned "" (some err), events⟩
        | .ok fromList =>
          let sender := if h : fromList.length > 0 then fromList[0] else ""
          match mr.Body with
          | .error err => ⟨.returned "" (some err), events⟩
          | .ok body =>
            let content := "От: " ++ sender ++ "\nТема: " ++ subject ++ "\n\n" ++ body
            if rest.length > 1 then ⟨.blocked, events⟩
            else
              match fetch.2 with
              | some err => ⟨.returned "" (some err), events⟩
              | none => ⟨.returned content none, events⟩

/-- What `deleteEmail` returns (nil is `none`), with the events it raised. -/
structure DeleteResult where
  err : Option Error
  events : List Event
  deriving DecidableEq, Repr

/-- Translation of `deleteEmail` (imap.go:356-377); `uidStore` and `expunge` are
the answers of the server to the two calls. -/
def deleteEmail (appData : AppData) (email : Email) (uidStore expunge : Option Error) :
    DeleteResult :=
  match appData.Client with
  | none => ⟨some "клиент не подключен", []⟩
  | some _ =>
    match uidStore with
    | some err =>
      ⟨some ("не удалось установить флаг удаления: " ++ err),
        [.uidStore email.UID "+FLAGS.SILENT" ["\\Deleted"]]⟩
    | none =>
      match expunge with
      | some err =>
        ⟨some ("не удалось выполнить expunge: " ++ err),
          [.uidStore email.UID "+FLAGS.SILENT" ["\\Deleted"], .expunge]⟩
      | none => ⟨none, [.uidStore email.UID "+FLAGS.SILENT" ["\\Deleted"], .expunge]⟩

/-! ## Facts about the pattern -/

theorem plusLoop_dot_nil (n : Nat) : plusLoop (Regex.run .anyNotNL) n [] = [] := by
  cases n <;> rfl

theorem plusLoop_dot_cons (n : Nat) (x : Char) (t : List Char) :
    plusLoop (Regex.run .anyNotNL) (n + 1) (x :: t) =
      if x = '\n' then [] else plusLoop (Regex.run .anyNotNL) n t ++ [(t, [])] := by
  by_cases hx : x = '\n'
  · simp [plusLoop, Regex.run, hx]
  · have e : Regex.run .anyNotNL (x :: t) = [(t, [])] := by simp [Regex.run, hx]
    simp [plusLoop, e, hx]

/-- The dot, iterated: every thread has captured nothing. -/
theorem plusLoop_dot_caps (n : Nat) (d : List Char) (th : Thread)
    (h : th ∈ plusLoop (Regex.run .anyNotNL) n d) : th.2 = [] := by
  induction n generalizing d with
  | zero => simp [plusLoop] at h
  | succ n ih =>
    cases d with
    | nil => simp [plusLoop_dot_nil] at h
    | cons x t =>
      rw [plusLoop_dot_cons] at h
      by_cases hx : x = '\n'
      · simp [hx] at h
      · simp only [hx, if_false, List.mem_append, List.mem_singleton] at h
        rcases h with h | h
        · exact ih t h
        · rw [h]

/-- The dot, iterated, reaches the end of the text exactly when the text is
non-empty and free of line feeds. -/
theorem plusLoop_dot_end (n : Nat) (d : List Char) (hn : d.length < n) :
    (∃ th ∈ plusLoop (Regex.run .anyNotNL) n d, th.1 = []) ↔ (d ≠ [] ∧ '\n' ∉ d) := by
  induction d generalizing n with
  | nil => simp [plusLoop_dot_nil]
  | cons x t ih =>
    cases n with
    | zero => simp at hn
    | succ n =>
      have hn' : t.length < n := by simpa using hn
      rw [plusLoop_dot_cons]
      by_cases hx : x = '\n'
      · simp [hx]
      · have hx' : ¬ '\n' = x := fun h => hx h.symm
        have ih' := ih n hn'
        have rhs : (x :: t ≠ [] ∧ '\n' ∉ x :: t) ↔ '\n' ∉ t := by simp [hx']
        rw [rhs]
        simp only [hx, if_false, List.mem_append, List.mem_singleton]
        constructor
        · rintro ⟨th, h | h, hth⟩
          · exact (ih'.mp ⟨th, h, hth⟩).2
          · subst h
            simp at hth
            simp [hth]
        · intro hnl
          by_cases ht : t = []
          · exact ⟨(t, []), Or.inr rfl, ht⟩
          · obtain ⟨th, h, hth⟩ := ih'.mpr ⟨ht, hnl⟩
            exact ⟨th, Or.inl h, hth⟩

theorem mem_run_seq (r₁ r₂ : Regex) (s : List Char) (th : Thread) :
    th ∈ (Regex.seq r₁ r₂).run s ↔
      ∃ th₁ ∈ r₁.run s, ∃ th₂ ∈ r₂.run th₁.1, th = (th₂.1, th₁.2 ++ th₂.2) := by
  rw [Regex.run]
  simp only [List.mem_flatMap, List.mem_map]
  constructor
  · rintro ⟨th₁, h₁, th₂, h₂, rfl⟩
    exact ⟨th₁, h₁, th₂, h₂, rfl⟩
  · rintro ⟨th₁, h₁, th₂, h₂, rfl⟩
    exact ⟨th₁, h₁, th₂, h₂, rfl⟩

theorem mem_run_group (r : Regex) (s : List Char) (th : Thread) :
    th ∈ (Regex.group r).run s ↔
      ∃ th₀ ∈ r.run s, th = (th₀.1, th₀.2 ++ [s.take (s.length - th₀.1.length)]) := by
  rw [Regex.run]
  simp only [List.mem_map]
  constructor
  · rintro ⟨th₀, h₀, rfl⟩
    exact ⟨th₀, h₀, rfl⟩
  · rintro ⟨th₀, h₀, rfl⟩
    exact ⟨th₀, h₀, rfl⟩

theorem mem_run_endText (s : List Char) (th : Thread) :
    th ∈ Regex.endText.run s ↔ s = [] ∧ th = ([], []) := by
  cases s <;> simp [Regex.run]

theorem mem_run_lit (c : Char) (s : List Char) (th : Thread) :
    th ∈ (Regex.lit c).run s ↔ ∃ t, s = c :: t ∧ th = (t, []) := by
  cases s with
  | nil => simp [Regex.run]
  | cons x t =>
    by_cases hx : x = c
    · simp [Regex.run, hx]
    · simp [Regex.run, hx]

theorem run_plus (r : Regex) (s : List Char) :
    (Regex.plus r).run s = plusLoop r.run (s.length + 1) s := by
  rw [Regex.run]

/-- The threads of the pattern `@(.+)$` at a position: there is one exactly when
the text there is an at sign followed by a non-empty run of characters other
than line feed that reaches the end; it has consumed everything and captured what
follows the at sign. -/
theorem mem_run_re (s : List Char) (th : Thread) :
    th ∈ re.run s ↔ ∃ d, s = '@' :: d ∧ d ≠ [] ∧ '\n' ∉ d ∧ th = ([], [d]) := by
  simp only [re, mem_run_seq, mem_run_group, mem_run_endText, mem_run_lit, run_plus]
  constructor
  · rintro ⟨th₁, ⟨d, rfl, rfl⟩, th₂, ⟨th₃, ⟨th₀, h₀, rfl⟩, th₄, ⟨hrest, rfl⟩, rfl⟩, rfl⟩
    have hc := plusLoop_dot_caps _ _ _ h₀
    have hrest' : th₀.1 = [] := hrest
    have hd := (plusLoop_dot_end (d.length + 1) d (Nat.lt_succ_self _)).mp ⟨th₀, h₀, hrest'⟩
    refine ⟨d, rfl, hd.1, hd.2, ?_⟩
    simp [hc, hrest']
  · rintro ⟨d, rfl, hne, hnl, rfl⟩
    obtain ⟨th₀, h₀, hrest⟩ :=
      (plusLoop_dot_end (d.length + 1) d (Nat.lt_succ_self _)).mpr ⟨hne, hnl⟩
    have hc := plusLoop_dot_caps _ _ _ h₀
    refine ⟨(d, []), ⟨d, rfl, rfl⟩, ([], [d]), ⟨(th₀.1, th₀.2 ++ [d.take (d.length - th₀.1.length)]),
      ⟨th₀, h₀, rfl⟩, ([], []), ⟨hrest, rfl⟩, ?_⟩, rfl⟩
    simp [hc, hrest]

/-- The match of the pattern at a position. -/
theorem matchHere_re (s : List Char) :
    re.matchHere s =
      match s with
      | [] => none
      | x :: d => if x = '@' ∧ d ≠ [] ∧ '\n' ∉ d then some [s, d] else none := by
  unfold Regex.matchHere
  cases hrun : re.run s with
  | nil =>
    cases s with
    | nil => rfl
    | cons x d =>
      by_cases hc : x = '@' ∧ d ≠ [] ∧ '\n' ∉ d
      · obtain ⟨rfl, hne, hnl⟩ := hc
        have hm : (([] : List Char), [d]) ∈ re.run ('@' :: d) :=
          (mem_run_re _ _).mpr ⟨d, rfl, hne, hnl, rfl⟩
        rw [hrun] at hm
        simp at hm
      · simp only [hc, if_false]
  | cons th rest =>
    have hm : th ∈ re.run s := by rw [hrun]; simp
    obtain ⟨d, rfl, hne, hnl, rfl⟩ := (mem_run_re _ _).mp hm
    simp [hne, hnl]

/-- What the leftmost search of the pattern returns: a match at the first at
sign that is followed, up to the end of the text, by one or more characters
other than line feed; nothing when there is no such at sign. -/
theorem search_re (s : List Char) :
    (∀ m, re.search s = some m →
      ∃ pre d, s = pre ++ '@' :: d ∧ d ≠ [] ∧ '\n' ∉ d ∧ m = [('@' :: d), d] ∧
        ∀ pre' d', s = pre' ++ '@' :: d' → pre'.length < pre.length → '\n' ∈ d') ∧
    (re.search s = none → ∀ pre d, s = pre ++ '@' :: d → d = [] ∨ '\n' ∈ d) := by
  induction s with
  | nil =>
    constructor
    · intro m h
      simp [Regex.search, matchHere_re] at h
    · intro _ pre d h
      simp at h
  | cons x t ih =>
    by_cases hc : x = '@' ∧ t ≠ [] ∧ '\n' ∉ t
    · have hs : re.search (x :: t) = some [x :: t, t] := by
        simp only [Regex.search, matchHere_re, if_pos hc]
      obtain ⟨rfl, hne, hnl⟩ := hc
      constructor
      · intro m h
        rw [hs] at h
        refine ⟨[], t, rfl, hne, hnl, ?_, ?_⟩
        · simpa using h.symm
        · intro pre' d' _ hlt
          simp at hlt
      · intro h
        rw [hs] at h
        simp at h
    · have hs : re.search (x :: t) = re.search t := by
        simp only [Regex.search, matchHere_re, if_neg hc]
      rw [hs]
      constructor
      · intro m h
        obtain ⟨pre, d, rfl, hne, hnl, hm, hmin⟩ := ih.1 m h
        refine ⟨x :: pre, d, rfl, hne, hnl, hm, ?_⟩
        intro pre' d' heq hlt
        cases pre' with
        | nil =>
          simp only [List.nil_append, List.cons_append, List.cons.injEq] at heq
          obtain ⟨rfl, rfl⟩ := heq
          by_contra hno
          exact hc ⟨rfl, by simp, hno⟩
        | cons y p =>
          simp only [List.cons_append, List.cons.injEq] at heq
          exact hmin p d' heq.2 (by simpa using hlt)
      · intro h pre d heq
        cases pre with
        | nil =>
          simp only [List.nil_append, List.cons.injEq] at heq
          obtain ⟨rfl, rfl⟩ := heq
          by_contra hno
          simp only [not_or] at hno
          exact hc ⟨rfl, hno.1, hno.2⟩
        | cons y p =>
          simp only [List.cons_append, List.cons.injEq] at heq
          exact ih.2 h p d heq.2

/-- The table lookup and the fallback of imap.go:399-403, as an expression. -/
theorem getIMAPServer_of_search_some (email : String) (d : List Char)
    (h : re.search email.data = some [('@' :: d), d]) :
    getIMAPServer email =
      ((servers.lookup (String.mk d)).getD ("imap." ++ String.mk d), 993) := by
  unfold getIMAPServer Regex.FindStringSubmatch
  rw [h]
  simp only [List.map_cons, List.map_nil]
  cases servers.lookup (String.mk d) <;> rfl

theorem getIMAPServer_of_search_none (email : String) (h : re.search email.data = none) :
    getIMAPServer email = ("", 0) := by
  unfold getIMAPServer Regex.FindStringSubmatch
  rw [h]

/-- Every host the resolver can produce is a non-empty string. -/
theorem host_ne_empty (domain : String) :
    (servers.lookup domain).getD ("imap." ++ domain) ≠ "" := by
  cases h : servers.lookup domain with
  | none =>
    simp only [Option.getD_none]
    intro he
    have hl := congrArg String.length he
    rw [String.length_append] at hl
    have h5 : "imap.".length = 5 := by decide
    have h0 : "".length = 0 := by decide
    omega
  | some host =>
    simp only [servers, List.lookup] at h
    repeat' split at h
    all_goals first
      | (cases h; simp only [Option.getD_some]; decide)
      | (simp at h)

theorem mem_of_append_eq_of_lt (u x pre d : List Char) (c : Char)
    (heq : u ++ x = pre ++ c :: d) (hlt : pre.length < u.length) : c ∈ u := by
  induction pre generalizing u with
  | nil =>
    cases u with
    | nil => simp at hlt
    | cons a v =>
      simp only [List.cons_append, List.nil_append, List.cons.injEq] at heq
      simp [heq.1]
  | cons b p ih =>
    cases u with
    | nil => simp at hlt
    | cons a v =>
      simp only [List.cons_append, List.cons.injEq] at heq
      exact List.mem_cons_of_mem _ (ih v heq.2 (by simpa using hlt))

theorem search_re_none_iff (s : List Char) :
    re.search s = none ↔ ¬ ∃ pre d, s = pre ++ '@' :: d ∧ d ≠ [] ∧ '\n' ∉ d := by
  constructor
  · rintro h ⟨pre, d, heq, hne, hnl⟩
    rcases (search_re s).2 h pre d heq with h' | h'
    · exact hne h'
    · exact hnl h'
  · intro h
    cases hs : re.search s with
    | none => rfl
    | some m =>
      obtain ⟨pre, d, heq, hne, hnl, _, _⟩ := (search_re s).1 m hs
      exact absurd ⟨pre, d, heq, hne, hnl⟩ h

/-- The search finds the first at sign that is followed by a non-empty,
line-feed-free rest. -/
theorem search_re_first (s pre d : List Char) (heq : s = pre ++ '@' :: d) (hne : d ≠ [])
    (hnl : '\n' ∉ d)
    (hmin : ∀ pre' d', s = pre' ++ '@' :: d' → pre'.length < pre.length → '\n' ∈ d') :
    re.search s = some [('@' :: d), d] := by
  cases hs : re.search s with
  | none => exact absurd ⟨pre, d, heq, hne, hnl⟩ ((search_re_none_iff s).mp hs)
  | some m =>
    obtain ⟨pre₂, d₂, heq₂, _, hnl₂, hm, hmin₂⟩ := (search_re s).1 m hs
    have hlen : pre.length = pre₂.length := by
      rcases Nat.lt_trichotomy pre.length pre₂.length with hlt | he | hgt
      · exact absurd (hmin₂ pre d heq hlt) hnl
      · exact he
      · exact absurd (hmin pre₂ d₂ heq₂ hgt) hnl₂
    have hboth : pre ++ '@' :: d = pre₂ ++ '@' :: d₂ := heq.symm.trans heq₂
    have hinj := List.append_inj hboth hlen
    have hd : d = d₂ := by simpa using hinj.2
    rw [hm, hd]

theorem lookup_servers (domain : String) :
    servers.lookup domain =
      if domain = "gmail.com" then some "imap.gmail.com"
      else if domain = "yahoo.com" then some "imap.mail.yahoo.com"
      else if domain = "outlook.com" then some "imap-mail.outlook.com"
      else if domain = "hotmail.com" then some "imap-mail.outlook.com"
      else if domain = "mail.ru" then some "imap.mail.ru"
      else if domain = "yandex.ru" then some "imap.yandex.ru"
      else none := by
  simp only [servers, List.lookup]
  repeat' split
  all_goals simp_all

/-- The resolver returns the failure value or a non-empty host with port 993. -/
theorem getIMAPServer_cases (email : String) :
    getIMAPServer email = ("", 0) ∨
      ∃ host, host ≠ "" ∧ getIMAPServer email = (host, 993) := by
  cases hs : re.search email.data with
  | none => exact Or.inl (getIMAPServer_of_search_none email hs)
  | some m =>
    obtain ⟨pre, d, _, _, _, hm, _⟩ := (search_re email.data).1 m hs
    rw [hm] at hs
    exact Or.inr ⟨_, host_ne_empty _, getIMAPServer_of_search_some email d hs⟩

theorem getIMAPServer_fail_iff (email : String) :
    getIMAPServer email = ("", 0) ↔
      ¬ ∃ pre d, email.data = pre ++ '@' :: d ∧ d ≠ [] ∧ '\n' ∉ d := by
  rw [← search_re_none_iff]
  constructor
  · intro h
    cases hs : re.search email.data with
    | none => rfl
    | some m =>
      obtain ⟨pre, d, _, _, _, hm, _⟩ := (search_re email.data).1 m hs
      rw [hm] at hs
      rw [getIMAPServer_of_search_some email d hs] at h
      simp at h
  · exact getIMAPServer_of_search_none email

/-! ## The resolver -/

/-- C2 fails as stated: the address `a@b<LF>c` has a local part without at sign
and a non-empty domain, and the resolver returns the failure value for it. -/
theorem getIMAPServer_line_feed_domain_fails :
    '@' ∉ "a".data ∧ "b\nc" ≠ "" ∧ getIMAPServer ("a" ++ "@" ++ "b\nc") = ("", 0) := by
  decide

/-- C2, amended: for an address `user@domain` whose local part has no at sign
and whose domain is non-empty and has no line feed, the resolver returns port
993 with the table entry of the domain when the domain is one of the six known
ones, and with `imap.` followed by the domain otherwise.  (The resolver is a
function of the address alone, so equal inputs give equal results.) -/
theorem getIMAPServer_table_then_fallback (user domain : String)
    (hu : '@' ∉ user.data) (hd : domain ≠ "") (hnl : '\n' ∉ domain.data) :
    ∃ host, getIMAPServer (user ++ "@" ++ domain) = (host, 993) ∧
      (domain = "gmail.com" → host = "imap.gmail.com") ∧
      (domain = "yahoo.com" → host = "imap.mail.yahoo.com") ∧
      (domain = "outlook.com" → host = "imap-mail.outlook.com") ∧
      (domain = "hotmail.com" → host = "imap-mail.outlook.com") ∧
      (domain = "mail.ru" → host = "imap.mail.ru") ∧
      (domain = "yandex.ru" → host = "imap.yandex.ru") ∧
      (domain ∉ ["gmail.com", "yahoo.com", "outlook.com", "hotmail.com", "mail.ru",
          "yandex.ru"] → host = "imap." ++ domain) := by
  have hdata : (user ++ "@" ++ domain).data = user.data ++ '@' :: domain.data := by
    simp [String.data_append]
  have hne : domain.data ≠ [] := by
    intro h
    apply hd
    exact String.ext h
  have hs : re.search (user ++ "@" ++ domain).data = some [('@' :: domain.data), domain.data] := by
    apply search_re_first _ user.data domain.data hdata hne hnl
    intro pre' d' heq hlt
    exfalso
    rw [hdata] at heq
    have hmem : '@' ∈ user.data := mem_of_append_eq_of_lt _ _ _ _ _ heq hlt
    exact hu hmem
  refine ⟨(servers.lookup domain).getD ("imap." ++ domain), ?_, ?_⟩
  · exact getIMAPServer_of_search_some _ _ hs
  · rw [lookup_servers]
    refine ⟨?_, ?_, ?_, ?_, ?_, ?_, ?_⟩
    · rintro rfl; rfl
    · rintro rfl; rfl
    · rintro rfl; rfl
    · rintro rfl; rfl
    · rintro rfl; rfl
    · rintro rfl; rfl
    · intro h
      simp only [List.mem_cons, List.mem_singleton, List.not_mem_nil, or_false, not_or] at h
      simp [h]

theorem getIMAPServer_table_then_fallback_witness :
    '@' ∉ "bob".data ∧ "example.org" ≠ "" ∧ '\n' ∉ "example.org".data ∧
      getIMAPServer ("bob" ++ "@" ++ "example.org") = ("imap.example.org", 993) :=
  ⟨by decide, by decide, by decide,
    match getIMAPServer_table_then_fallback "bob" "example.org" (by decide) (by decide)
        (by decide) with
    | ⟨_, h, _, _, _, _, _, _, hf⟩ => by rw [h, hf (by decide)]; rfl⟩

/-- C3: for every input without an at sign the resolver returns the failure
value `("", 0)`, hence neither a host nor the port 993, and the login callback,
run on such an address (non-empty after trimming, with a non-empty password),
does nothing but report that the server could not be determined. -/
theorem getIMAPServer_fails_without_at (email : String) (h : '@' ∉ email.data) :
    getIMAPServer email = ("", 0) ∧ (getIMAPServer email).2 ≠ 993 ∧
      ∀ (appData : AppData) (emailText passwordText : String) (env : LoginEnv),
        TrimSpace emailText = email → email ≠ "" → TrimSpace passwordText ≠ "" →
        loginHandler appData emailText passwordText env =
          ⟨appData, [.showError "Не удалось определить IMAP сервер для данного домена"]⟩ := by
  have hfail : getIMAPServer email = ("", 0) := by
    rw [getIMAPServer_fail_iff]
    rintro ⟨pre, d, heq, _, _⟩
    apply h
    rw [heq]
    simp
  refine ⟨hfail, by rw [hfail]; decide, ?_⟩
  intro appData emailText passwordText env ht he hp
  unfold loginHandler
  simp only [ht, he, hp, or_self, if_false, hfail, true_or, if_true]

theorem getIMAPServer_fails_without_at_witness :
    '@' ∉ "bob.example.org".data ∧ getIMAPServer "bob.example.org" = ("", 0) ∧
      loginHandler ⟨none, []⟩ " bob.example.org" "secret"
          ⟨.ok ⟨1⟩, none, .ok ⟨3⟩, ([], none)⟩ =
        ⟨⟨none, []⟩, [.showError "Не удалось определить IMAP сервер для данного домена"]⟩ :=
  ⟨by decide, (getIMAPServer_fails_without_at "bob.example.org" (by decide)).1,
    (getIMAPServer_fails_without_at "bob.example.org" (by decide)).2.2 _ _ _ _
      (by decide) (by decide) (by decide)⟩

/-- C10: the resolver returns either the failure value `("", 0)` or a non-empty
host with port 993; it fails exactly when no at sign of the input is followed,
up to the end of the input, by one or more characters other than line feed;
and on success the domain it looks up is everything after the first such at
sign, so that an address with several at signs gets a domain with an at sign
in it. -/
theorem getIMAPServer_result_shape (email : String) :
    (getIMAPServer email = ("", 0) ∨
      ∃ host, host ≠ "" ∧ getIMAPServer email = (host, 993)) ∧
    (getIMAPServer email = ("", 0) ↔
      ¬ ∃ pre d, email.data = pre ++ '@' :: d ∧ d ≠ [] ∧ '\n' ∉ d) ∧
    (∀ pre d, email.data = pre ++ '@' :: d → d ≠ [] → '\n' ∉ d →
      (∀ pre' d', email.data = pre' ++ '@' :: d' → pre'.length < pre.length → '\n' ∈ d') →
      getIMAPServer email =
        ((servers.lookup (String.mk d)).getD ("imap." ++ String.mk d), 993)) ∧
    getIMAPServer "a@b@c" = ("imap.b@c", 993) ∧
    getIMAPServer "a@b\n@c" = ("imap.c", 993) := by
  refine ⟨getIMAPServer_cases email, getIMAPServer_fail_iff email, ?_, by decide, by decide⟩
  intro pre d heq hne hnl hmin
  exact getIMAPServer_of_search_some email d (search_re_first _ pre d heq hne hnl hmin)

/-! ## Listing the recent messages -/

/-- The arithmetic of imap.go:105-108 and imap.go:216-219 on a `uint32`. -/
theorem seqFrom_eq (N : Nat) (h1 : 1 ≤ N) (h2 : N ≤ 2 ^ 32 - 1) :
    (((if N > 10 then (N + 2 ^ 32 - 9) % 2 ^ 32 else 1 : Nat) : Nat) : Int) =
      max 1 ((N : Int) - 9) := by
  norm_num at h2 ⊢
  split
  · omega
  · omega


/-- On records that all carry an envelope the loop does not panic and keeps,
in order, the records with a sender. -/
theorem collectLoop_enveloped (messages : List Message) (emails : List Email)
    (h : ∀ msg ∈ messages, msg.Envelope ≠ none) :
    collectLoop emails messages =
      some (emails ++ messages.filterMap fun msg =>
        match msg.Envelope with
        | some envelope =>
          match envelope.From with
          | [] => none
          | a :: _ => some (Email.mk msg.Uid a.Address envelope.Subject)
        | none => none) := by
  induction messages generalizing emails with
  | nil => simp [collectLoop]
  | cons m rest ih =>
    have hrest : ∀ msg ∈ rest, msg.Envelope ≠ none :=
      fun msg hm => h msg (List.mem_cons_of_mem _ hm)
    cases he : m.Envelope with
    | none => exact absurd he (h m (by simp))
    | some envelope =>
      cases hf : envelope.From with
      | nil => simp [collectLoop, he, hf, ih _ hrest, List.filterMap_cons]
      | cons a t => simp [collectLoop, he, hf, ih _ hrest, List.filterMap_cons]

/-- A record with a nil envelope makes the loop panic. -/
theorem collectLoop_nil_envelope (messages : List Message) (emails : List Email)
    (h : ∃ msg ∈ messages, msg.Envelope = none) : collectLoop emails messages = none := by
  induction messages generalizing emails with
  | nil => simp at h
  | cons m rest ih =>
    cases he : m.Envelope with
    | none => simp [collectLoop, he]
    | some envelope =>
      have hrest : ∃ msg ∈ rest, msg.Envelope = none := by
        obtain ⟨msg, hm, hmsg⟩ := h
        rcases List.mem_cons.mp hm with rfl | hm'
        · rw [he] at hmsg; cases hmsg
        · exact ⟨msg, hm', hmsg⟩
      by_cases hf : envelope.From.length > 0
      · simp [collectLoop, he, hf, ih _ hrest]
      · simp [collectLoop, he, hf, ih _ hrest]

/-- The login callback once the server is resolved, the connection made, the
login accepted and the mailbox selected. -/
theorem loginHandler_selected (appData : AppData) (emailText passwordText : String)
    (env : LoginEnv) (c : Client) (N : Nat)
    (he : TrimSpace emailText ≠ "") (hp : TrimSpace passwordText ≠ "")
    (hs : getIMAPServer (TrimSpace emailText) ≠ ("", 0))
    (hd : env.dial = .ok c) (hl : env.login = none) (hsel : env.select = .ok ⟨N⟩) :
    ∃ addr, loginHandler appData emailText passwordText env =
      if N = 0 then
        ⟨⟨some c, appData.Emails⟩,
          [.dialTLS addr, .login (TrimSpace emailText) (TrimSpace passwordText), .select,
            .logout, .showInformation "INBOX пуст" "Нет сообщений в INBOX"]⟩
      else
        match collectEmails env.fetch.1 with
        | none =>
          ⟨⟨some c, appData.Emails⟩,
            [.dialTLS addr, .login (TrimSpace emailText) (TrimSpace passwordText), .select,
              .fetch (if N > 10 then (N + 2 ^ 32 - 9) % 2 ^ 32 else 1) N, .panic]⟩
        | some emails =>
          match env.fetch.2 with
          | some err =>
            ⟨⟨some c, appData.Emails⟩,
              [.dialTLS addr, .login (TrimSpace emailText) (TrimSpace passwordText), .select,
                .fetch (if N > 10 then (N + 2 ^ 32 - 9) % 2 ^ 32 else 1) N, .logout,
                .showError ("Ошибка при получении писем: " ++ err)]⟩
          | none =>
            ⟨⟨some c, emails⟩,
              [.dialTLS addr, .login (TrimSpace emailText) (TrimSpace passwordText), .select,
                .fetch (if N > 10 then (N + 2 ^ 32 - 9) % 2 ^ 32 else 1) N,
                .showEmailList]⟩ := by
  rcases getIMAPServer_cases (TrimSpace emailText) with h0 | ⟨host, hhost, hh⟩
  · exact absurd h0 hs
  · refine ⟨host ++ ":" ++ toString (993 : Int), ?_⟩
    unfold loginHandler
    simp only [he, hp, or_self, if_false, hh, hhost, hd, hl, hsel]
    by_cases hN : N = 0
    · simp [hN]
    · cases hc : collectEmails env.fetch.1 <;> cases hf : env.fetch.2 <;> simp [hN, hc, hf]

/-- C1: for a mailbox of `N` messages, `1 ≤ N ≤ 2^32 - 1`, the fetch issued by
`fetchEmails` and the fetch issued by the login callback ask for exactly the
sequence range from `max 1 (N - 9)`, computed over the integers, to `N`: from 1
when `N ≤ 10`, from `N - 9` otherwise; 3 messages give `1:3`, 25 give `16:25`. -/
theorem recent_range_is_last_ten (N : Nat) (h1 : 1 ≤ N) (h2 : N ≤ 2 ^ 32 - 1) :
    (∀ (c : Client) (emails : List Email) (fetch : List Message × Option Error) (a b : Nat),
      Event.fetch a b ∈ (fetchEmails ⟨some c, emails⟩ (.ok ⟨N⟩) fetch).events ↔
        ((a : Int) = max 1 ((N : Int) - 9) ∧ b = N)) ∧
    (∀ (appData : AppData) (emailText passwordText : String) (env : LoginEnv) (c : Client),
      TrimSpace emailText ≠ "" → TrimSpace passwordText ≠ "" →
      getIMAPServer (TrimSpace emailText) ≠ ("", 0) →
      env.dial = .ok c → env.login = none → env.select = .ok ⟨N⟩ →
      ∀ a b : Nat, Event.fetch a b ∈ (loginHandler appData emailText passwordText env).events ↔
        ((a : Int) = max 1 ((N : Int) - 9) ∧ b = N)) ∧
    (max 1 ((N : Int) - 9) = if N ≤ 10 then 1 else (N : Int) - 9) ∧
    (fetchEmails ⟨some ⟨0⟩, []⟩ (.ok ⟨3⟩) ([], none)).events =
      [.select, .fetch 1 3, .showEmailList] ∧
    (fetchEmails ⟨some ⟨0⟩, []⟩ (.ok ⟨25⟩) ([], none)).events =
      [.select, .fetch 16 25, .showEmailList] := by
  have hN : N ≠ 0 := by omega
  have hfrom := seqFrom_eq N h1 h2
  have key : ∀ a b : Nat,
      (a = (if N > 10 then (N + 2 ^ 32 - 9) % 2 ^ 32 else 1) ∧ b = N) ↔
        ((a : Int) = max 1 ((N : Int) - 9) ∧ b = N) := by
    intro a b
    rw [← hfrom]
    constructor
    · rintro ⟨ha, hb⟩
      exact ⟨by rw [ha], hb⟩
    · rintro ⟨ha, hb⟩
      exact ⟨by exact_mod_cast ha, hb⟩
  refine ⟨?_, ?_, ?_, by decide, by decide⟩
  · intro c emails fetch a b
    rw [← key]
    unfold fetchEmails
    cases hc : collectEmails fetch.1 <;> cases hf : fetch.2 <;> simp [hN]
  · intro appData emailText passwordText env c he hp hs hd hl hsel a b
    rw [← key]
    obtain ⟨addr, hrun⟩ := loginHandler_selected appData emailText passwordText env c N
      he hp hs hd hl hsel
    rw [hrun]
    cases hc : collectEmails env.fetch.1 <;> cases hf : env.fetch.2 <;> simp [hN]
  · split <;> omega

theorem recent_range_is_last_ten_witness :
    1 ≤ 25 ∧ 25 ≤ 2 ^ 32 - 1 ∧
      Event.fetch 16 25 ∈
        (fetchEmails ⟨some ⟨0⟩, []⟩ (.ok ⟨25⟩) ([], some "NO fetch failed")).events ∧
      Event.fetch 16 25 ∈
        (loginHandler ⟨none, []⟩ "bob@gmail.com" "secret"
          ⟨.ok ⟨1⟩, none, .ok ⟨25⟩, ([], none)⟩).events :=
  ⟨by decide, by decide,
    ((recent_range_is_last_ten 25 (by decide) (by decide)).1 ⟨0⟩ [] _ 16 25).mpr
      ⟨by decide, rfl⟩,
    ((recent_range_is_last_ten 25 (by decide) (by decide)).2.1 ⟨none, []⟩ "bob@gmail.com"
      "secret" ⟨.ok ⟨1⟩, none, .ok ⟨25⟩, ([], none)⟩ ⟨1⟩ (by decide) (by decide) (by decide)
      rfl rfl rfl 16 25).mpr ⟨by decide, rfl⟩⟩

/-- What the listing does on records that all carry an envelope, after a
successful completion: it stores the records with a sender, in the order of
arrival, each as (UID, address of the first sender, subject), and shows the
list. -/
theorem fetchEmails_enveloped (messages : List Message) (c : Client) (emails : List Email)
    (N : Nat) (hN : N ≠ 0) (h : ∀ msg ∈ messages, msg.Envelope ≠ none) :
    fetchEmails ⟨some c, emails⟩ (.ok ⟨N⟩) (messages, none) =
      ⟨⟨some c, messages.filterMap fun msg =>
          match msg.Envelope with
          | some envelope =>
            match envelope.From with
            | [] => none
            | a :: _ => some (Email.mk msg.Uid a.Address envelope.Subject)
          | none => none⟩,
        [.select, .fetch (if N > 10 then (N + 2 ^ 32 - 9) % 2 ^ 32 else 1) N,
          .showEmailList]⟩ := by
  unfold fetchEmails
  simp [hN, collectEmails, collectLoop_enveloped messages [] h]

/-- C4, the code at the failing input: the second of three records has no
envelope; after a successful completion `fetchEmails` has not stored the two
records that have a sender: the loop panics on the nil envelope, the list is
as it was and is not shown. -/
theorem fetchEmails_nil_envelope_panics :
    fetchEmails ⟨some ⟨0⟩, []⟩ (.ok ⟨3⟩)
        ([⟨11, some ⟨[⟨"", "", "ann", "example.org"⟩], "one"⟩, none⟩,
          ⟨12, none, none⟩,
          ⟨13, some ⟨[⟨"", "", "bob", "gmail.com"⟩], "three"⟩, none⟩],
          none) =
      ⟨⟨some ⟨0⟩, []⟩, [.select, .fetch 1 3, .panic]⟩ := by
  decide

/-- C6: on a connected client `deleteEmail` issues the UID store that adds
`\Deleted` first and the expunge only after a successful store; when the store
fails, no expunge is issued and an error is returned; it returns nil exactly
when both exchanges succeeded.  (Without a client it issues nothing and returns
an error.) -/
theorem deleteEmail_store_then_expunge (c : Client) (emails : List Email) (email : Email)
    (uidStore expunge : Option Error) :
    (deleteEmail ⟨some c, emails⟩ email uidStore expunge).events =
      (if uidStore = none then
        [.uidStore email.UID "+FLAGS.SILENT" ["\\Deleted"], .expunge]
      else [.uidStore email.UID "+FLAGS.SILENT" ["\\Deleted"]]) ∧
    (Event.expunge ∈ (deleteEmail ⟨some c, emails⟩ email uidStore expunge).events ↔
      uidStore = none) ∧
    (uidStore ≠ none →
      Event.expunge ∉ (deleteEmail ⟨some c, emails⟩ email uidStore expunge).events ∧
        (deleteEmail ⟨some c, emails⟩ email uidStore expunge).err ≠ none) ∧
    ((deleteEmail ⟨some c, emails⟩ email uidStore expunge).err = none ↔
      (uidStore = none ∧ expunge = none)) ∧
    deleteEmail ⟨none, emails⟩ email uidStore expunge = ⟨some "клиент не подключен", []⟩ := by
  cases uidStore <;> cases expunge <;> simp [deleteEmail]

/-- C7: when the channel of the UID fetch is closed without a record,
`viewMessage`, called on a client, returns the empty string with the error
"сообщение не найдено", whatever the completion signal says; it does not return
nil. -/
theorem viewMessage_without_record_not_found (c : Client) (uid : Nat)
    (done : Option Error) :
    (viewMessage (some c) uid ([], done)).outcome =
        .returned "" (some "сообщение не найдено") ∧
      (∀ content, (viewMessage (some c) uid ([], done)).outcome ≠ .returned content none) ∧
      (viewMessage (some c) uid ([], done)).events = [.uidFetch uid] := by
  simp [viewMessage]

/-- C8, the code at the failing input: with one email stored and a mailbox that
reports zero messages, `fetchEmails` issues no fetch, and the stored list still
holds that email afterwards. -/
theorem fetchEmails_empty_mailbox_keeps_list :
    fetchEmails ⟨some ⟨0⟩, [⟨7, "ann@example.org", "hello"⟩]⟩ (.ok ⟨0⟩) ([], none) =
      ⟨⟨some ⟨0⟩, [⟨7, "ann@example.org", "hello"⟩]⟩,
        [.select, .showInformation "INBOX пуст" "Нет сообщений в INBOX"]⟩ := by
  decide

end ImapClient
